import Mathlib

/-!
Verification of the Spotify-tracks dashboard (`app.py`).

The development shallowly embeds the two core components of the script:

* the loader/normalizer `load_data` (app.py lines 10-34): drop rows with a
  missing value in any of the four required columns, keep years in
  1921..2020, derive the `decade` label, and strip bracket and quote
  characters from the `artists` strings;
* the filter-and-aggregate pipeline (app.py lines 63-197): year-range and
  artist-allowlist filters, the three KPI metrics, the top-10-artists
  table, the numerically sorted decade-distribution table, and the empty
  result guard.

Machine-level concerns (the Streamlit UI, plotting, CSV parsing and the
`st.cache_data` memoisation decorator) are outside the embedding; the pure
data transformations are translated directly from the pandas calls.
Pandas semantics that the script relies on are modelled as follows:

* `Series.value_counts()` sorts descending by count; equal counts keep the
  first-occurrence order of the keys (a stable descending sort over keys
  listed in order of first appearance);
* `Series.nlargest(n)` / taking the n largest of an already descending
  sorted counts series is `List.take n`;
* `Series.mode()` returns the modal values sorted ascending, so `.iloc[0]`
  is the lexicographically smallest modal value;
* `DataFrame.dropna(subset=cols)` raises a `KeyError` when one of `cols`
  is absent from the frame, modelled as `Except.error`.
-/

namespace SpotifyDash

/-! ### Generic list helpers -/

/-- Keys of a list in order of first occurrence, skipping keys already seen.
This is the key order a pandas hash-table aggregation produces. -/
def uniqueFirstAux : List String → List String → List String
  | [], _ => []
  | a :: as, seen =>
    if a ∈ seen then uniqueFirstAux as seen else a :: uniqueFirstAux as (a :: seen)

/-- Keys of `l` in order of first occurrence. -/
def uniqueFirst (l : List String) : List String := uniqueFirstAux l []

theorem mem_uniqueFirstAux (x : String) (l seen : List String) :
    x ∈ uniqueFirstAux l seen ↔ x ∈ l ∧ x ∉ seen := by
  induction l generalizing seen with
  | nil => simp [uniqueFirstAux]
  | cons a as ih =>
    simp only [uniqueFirstAux]
    by_cases ha : a ∈ seen
    · rw [if_pos ha, ih]
      constructor
      · rintro ⟨hx, hs⟩
        exact ⟨List.mem_cons_of_mem _ hx, hs⟩
      · rintro ⟨hx, hs⟩
        rcases List.mem_cons.mp hx with rfl | hx
        · exact absurd ha hs
        · exact ⟨hx, hs⟩
    · rw [if_neg ha, List.mem_cons, ih]
      constructor
      · rintro (rfl | ⟨hx, hs⟩)
        · exact ⟨List.mem_cons_self _ _, ha⟩
        · refine ⟨List.mem_cons_of_mem _ hx, fun hmem => ?_⟩
          exact hs (List.mem_cons_of_mem _ hmem)
      · rintro ⟨hx, hs⟩
        by_cases hxa : x = a
        · exact Or.inl hxa
        · rcases List.mem_cons.mp hx with h | h
          · exact absurd h hxa
          · refine Or.inr ⟨h, fun hmem => ?_⟩
            rcases List.mem_cons.mp hmem with h2 | h2
            · exact hxa h2
            · exact hs h2

theorem mem_uniqueFirst (x : String) (l : List String) :
    x ∈ uniqueFirst l ↔ x ∈ l := by
  simp [uniqueFirst, mem_uniqueFirstAux]

theorem uniqueFirst_ne_nil {l : List String} (h : l ≠ []) : uniqueFirst l ≠ [] := by
  cases l with
  | nil => exact absurd rfl h
  | cons a as => simp [uniqueFirst, uniqueFirstAux]

theorem le_foldr_max {x : Nat} : ∀ {ns : List Nat}, x ∈ ns → x ≤ ns.foldr max 0
  | n :: ns, h => by
    rcases List.mem_cons.mp h with h | h
    · subst h; exact Nat.le_max_left _ _
    · exact Nat.le_trans (le_foldr_max h) (Nat.le_max_right _ _)

theorem foldr_max_mem : ∀ (ns : List Nat), ns ≠ [] →
    ns.foldr max 0 ∈ ns ∨ ns.foldr max 0 = 0
  | [], h => absurd rfl h
  | n :: ns, _ => by
    cases ns with
    | nil =>
      simp only [List.foldr_cons, List.foldr_nil]
      rcases max_choice n 0 with h | h <;> simp [h]
    | cons m ms =>
      rcases max_choice n ((m :: ms).foldr max 0) with h | h
      · left
        simp only [List.foldr_cons] at h ⊢
        rw [h]
        exact List.mem_cons_self _ _
      · rcases foldr_max_mem (m :: ms) (by simp) with h3 | h3
        · left
          simp only [List.foldr_cons] at h h3 ⊢
          rw [h]
          exact List.mem_cons_of_mem _ h3
        · right
          simp only [List.foldr_cons] at h h3 ⊢
          rw [h, h3]

/-! ### Characters and string cleanup (app.py line 32) -/

/-- Whitespace stripped by Python's `str.strip()`. -/
def isPySpace (c : Char) : Bool :=
  c == Char.ofNat 32 || c == Char.ofNat 9 || c == Char.ofNat 10 ||
    c == Char.ofNat 13 || c == Char.ofNat 11 || c == Char.ofNat 12

/-- Strip leading and trailing Python whitespace from a character list. -/
def trimChars (cs : List Char) : List Char :=
  ((cs.dropWhile isPySpace).reverse.dropWhile isPySpace).reverse

/-- Is the character one of `[`, `]`, `'` (the class of the regex at
app.py line 32)? Character codes 91, 93 and 39. -/
def isListPunct (c : Char) : Bool :=
  c == Char.ofNat 91 || c == Char.ofNat 93 || c == Char.ofNat 39

/-- The cleanup `df.artists.str.replace(r"[\x5b\x5d']", '', regex=True).str.strip()`:
remove every bracket or quote character, then strip surrounding whitespace. -/
def cleanArtists (s : String) : String :=
  ((trimChars (s.toList.filter (fun c => !isListPunct c)))).asString

/-- The decade label `str((year // 10) * 10) + 's'` (app.py lines 27-28). -/
def decadeLabel (y : Int) : String := toString ((y / 10) * 10) ++ "s"

/-- Code-point lexicographic comparison of character lists, the order
Python uses on strings. -/
def charListLe : List Char → List Char → Bool
  | [], _ => true
  | _ :: _, [] => false
  | a :: as, b :: bs =>
    if a.toNat < b.toNat then true
    else if b.toNat < a.toNat then false
    else charListLe as bs

/-- Python string comparison, on the underlying character lists. -/
def strLE (a b : String) : Prop := charListLe a.toList b.toList = true

instance : DecidableRel strLE :=
  fun a b => inferInstanceAs (Decidable (charListLe a.toList b.toList = true))

theorem charListLe_total : ∀ as bs : List Char,
    charListLe as bs = true ∨ charListLe bs as = true
  | [], _ => Or.inl rfl
  | _ :: _, [] => Or.inr rfl
  | a :: as, b :: bs => by
    simp only [charListLe]
    rcases Nat.lt_trichotomy a.toNat b.toNat with h | h | h
    · left
      simp [h]
    · rw [h]
      simp only [Nat.lt_irrefl, if_false]
      exact charListLe_total as bs
    · right
      simp [h]

theorem charListLe_trans : ∀ as bs cs : List Char,
    charListLe as bs = true → charListLe bs cs = true → charListLe as cs = true
  | [], _, _, _, _ => rfl
  | _ :: _, [], _, h1, _ => by simp [charListLe] at h1
  | _ :: _, _ :: _, [], _, h2 => by simp [charListLe] at h2
  | a :: as, b :: bs, c :: cs, h1, h2 => by
    simp only [charListLe] at h1 h2 ⊢
    rcases Nat.lt_trichotomy a.toNat b.toNat with hab | hab | hab
    · rcases Nat.lt_trichotomy b.toNat c.toNat with hbc | hbc | hbc
      · rw [if_pos (by omega)]
      · rw [if_pos (by omega)]
      · rw [if_neg (by omega), if_pos hbc] at h2
        exact Bool.noConfusion h2
    · rw [if_neg (by omega), if_neg (by omega)] at h1
      rcases Nat.lt_trichotomy b.toNat c.toNat with hbc | hbc | hbc
      · rw [if_pos (by omega)]
      · rw [if_neg (by omega), if_neg (by omega)] at h2
        rw [if_neg (by omega), if_neg (by omega)]
        exact charListLe_trans as bs cs h1 h2
      · rw [if_neg (by omega), if_pos hbc] at h2
        exact Bool.noConfusion h2
    · rw [if_neg (by omega), if_pos hab] at h1
      exact Bool.noConfusion h1

instance : IsTotal String strLE := ⟨fun a b => charListLe_total a.toList b.toList⟩

instance : IsTrans String strLE :=
  ⟨fun a b c h1 h2 => charListLe_trans a.toList b.toList c.toList h1 h2⟩

/-- Parse a non-empty all-digit character list as a natural number. -/
def parseNatChars (cs : List Char) : Option Nat :=
  if cs.isEmpty then none
  else if cs.all (fun c => 48 ≤ c.toNat && c.toNat ≤ 57) then
    some (cs.foldl (fun n c => n * 10 + (c.toNat - 48)) 0)
  else none

/-- Parse a character list as an integer: an optional leading minus sign,
then digits. -/
def parseIntChars : List Char → Option Int
  | [] => none
  | c :: rest =>
    if c = Char.ofNat 45 then (parseNatChars rest).map (fun n => -(n : Int))
    else (parseNatChars (c :: rest)).map (fun n => (n : Int))

/-- Numeric decade used as sort key: drop the `s` characters and parse the
rest as an integer (app.py line 160). -/
def parseDecadeNum (s : String) : Int :=
  (parseIntChars (s.toList.filter (fun c => c ≠ 's'))).getD 0

/-! ### Data model -/

/-- One raw CSV row.  A `none` field is a NaN cell.  The `track_name` and
`track_artist` fields carry the variant-B columns, which `app.py` never
reads. -/
structure RawRow where
  name : Option String
  artists : Option String
  popularity : Option Rat
  year : Option Int
  track_name : Option String
  track_artist : Option String

/-- A raw table: which columns are present in the header, plus the rows. -/
structure RawTable where
  hasArtists : Bool
  hasName : Bool
  hasPopularity : Bool
  hasYear : Bool
  hasTrackName : Bool
  hasTrackArtist : Bool
  rows : List RawRow

/-- One row of the normalized table. -/
structure Track where
  name : String
  artists : String
  popularity : Rat
  year : Int
  decade : String

/-- All four columns required by `dropna(subset=['artists','name','popularity','year'])`
are present in the header. -/
def requiredPresent (t : RawTable) : Bool :=
  t.hasArtists && t.hasName && t.hasPopularity && t.hasYear

/-- A row survives `dropna`: no NaN in the four required columns. -/
def rowComplete (r : RawRow) : Bool :=
  r.artists.isSome && r.name.isSome && r.popularity.isSome && r.year.isSome

/-- The year-range mask `(df.year >= 1921) & (df.year <= 2020)` (app.py line 24). -/
def yearInRange (r : RawRow) : Bool :=
  match r.year with
  | some y => decide (1921 ≤ y) && decide (y ≤ 2020)
  | none => false

/-- Build the normalized row: derive `decade` and clean `artists`
(app.py lines 27-32). -/
def mkTrack (r : RawRow) : Option Track :=
  match r.name, r.artists, r.popularity, r.year with
  | some n, some a, some p, some y =>
    some ⟨n, cleanArtists a, p, y, decadeLabel y⟩
  | _, _, _, _ => none

/-- The loader `load_data` (app.py lines 10-34) minus the I/O: `dropna` on
the four required columns (raising `KeyError`, modelled as `Except.error`,
when one is absent from the header), the 1921-2020 year filter, the
`decade` derivation, and the `artists` cleanup. -/
def load_data (t : RawTable) : Except Unit (List Track) :=
  if requiredPresent t then
    Except.ok (((t.rows.filter rowComplete).filter yearInRange).filterMap mkTrack)
  else
    Except.error ()

/-- The table with the variant-B column-presence flags replaced; `load_data`
never consults them. -/
def withTrackCols (t : RawTable) (b₁ b₂ : Bool) : RawTable :=
  { t with hasTrackName := b₁, hasTrackArtist := b₂ }

/-! ### `value_counts` and the aggregations -/

/-- The order of a `value_counts()` result: descending by count. -/
def countGE (a b : String × Nat) : Prop := b.2 ≤ a.2

instance : DecidableRel countGE := fun a b => inferInstanceAs (Decidable (b.2 ≤ a.2))

instance : IsTotal (String × Nat) countGE := ⟨fun a b => le_total b.2 a.2⟩

instance : IsTrans (String × Nat) countGE := ⟨fun _ _ _ h1 h2 => le_trans h2 h1⟩

/-- Keys of `l` in first-occurrence order, paired with their counts. -/
def countsList (l : List String) : List (String × Nat) :=
  (uniqueFirst l).map (fun a => (a, l.count a))

/-- `Series.value_counts()`: counts sorted descending; a stable sort, so
equal counts stay in first-occurrence order of the keys. -/
def value_counts (l : List String) : List (String × Nat) :=
  List.insertionSort countGE (countsList l)

/-- `value_counts().nlargest(10)` (app.py line 132): the first ten entries
of the descending counts. -/
def top_10_artists (l : List String) : List (String × Nat) :=
  (value_counts l).take 10

/-- `df_original['artists'].value_counts().nlargest(100).index.tolist()`
(app.py line 86): the multiselect options. -/
def top_artists (table : List Track) : List String :=
  ((value_counts (table.map (fun t => t.artists))).take 100).map Prod.fst

/-- The largest count among the keys of `l`. -/
def maxCount (l : List String) : Nat :=
  ((uniqueFirst l).map (fun a => l.count a)).foldr max 0

/-- `Series.mode()`: all values of maximal count, sorted ascending. -/
def seriesMode (l : List String) : List String :=
  List.insertionSort strLE
    ((uniqueFirst l).filter (fun a => l.count a == maxCount l))

/-- `df_filtered['artists'].mode().iloc[0] if not ... else "N/A"`
(app.py line 120). -/
def most_frequent_artist (l : List String) : String :=
  match seriesMode l with
  | [] => "N/A"
  | m :: _ => m

/-- `df_filtered['popularity'].mean()` (app.py line 116). -/
def meanPopularity (rows : List Track) : Rat :=
  (rows.map (fun t => t.popularity)).sum / (rows.length : Rat)

/-- Ascending order on the numeric decade key (app.py lines 160-161). -/
def decadeLE (a b : String × Nat) : Prop := parseDecadeNum a.1 ≤ parseDecadeNum b.1

instance : DecidableRel decadeLE :=
  fun a b => inferInstanceAs (Decidable (parseDecadeNum a.1 ≤ parseDecadeNum b.1))

instance : IsTotal (String × Nat) decadeLE := ⟨fun _ _ => le_total _ _⟩

instance : IsTrans (String × Nat) decadeLE := ⟨fun _ _ _ h1 h2 => le_trans h1 h2⟩

/-- The decade-distribution table (app.py lines 155-161): `value_counts()`
on the decade labels, re-sorted ascending by the numeric decade. -/
def decade_distribution (l : List String) : List (String × Nat) :=
  List.insertionSort decadeLE (value_counts l)

/-! ### The filter pipeline (app.py lines 63-121) -/

/-- `df_filtered` (app.py lines 78-96): the year-range mask, then, when the
multiselect is non-empty, the `isin` restriction on `artists`. -/
def df_filtered (table : List Track) (lo hi : Int) (selected : List String) : List Track :=
  let afterYear := table.filter (fun t => decide (lo ≤ t.year) && decide (t.year ≤ hi))
  if selected.isEmpty then afterYear
  else afterYear.filter (fun t => selected.contains t.artists)

/-- The three KPI cards (app.py lines 109-121). -/
structure Metrics where
  total : Nat
  avgPopularity : Rat
  modalArtist : String

/-- What one rendering pass produces after the empty-result guard
(app.py lines 99-101): either the warning-and-stop, or the metrics, the
two chart tables and the data grid. -/
inductive RenderOutcome where
  | noRowsMatched : RenderOutcome
  | rendered : Metrics → List (String × Nat) → List (String × Nat) → List Track → RenderOutcome

/-- Everything a pass exposes: the multiselect options (computed from the
unfiltered table at app.py line 86) and the outcome. -/
structure DashboardRender where
  options : List String
  outcome : RenderOutcome

/-- One synchronous rendering pass of the script body (app.py lines 63-197). -/
def run_dashboard (table : List Track) (lo hi : Int) (selected : List String) :
    DashboardRender :=
  let f := df_filtered table lo hi selected
  if f.isEmpty then
    ⟨top_artists table, RenderOutcome.noRowsMatched⟩
  else
    ⟨top_artists table,
     RenderOutcome.rendered
       ⟨f.length, meanPopularity f, most_frequent_artist (f.map (fun t => t.artists))⟩
       (top_10_artists (f.map (fun t => t.artists)))
       (decade_distribution (f.map (fun t => t.decade)))
       f⟩

/-- Transcribed from the spec's words for the modal-artist metric: the most
frequent value with ties broken by first-encountered order in the
underlying table, `"N/A"` when the subset is empty.  Used only to compare
against `most_frequent_artist`. -/
def modalArtistFirstTie (l : List String) : String :=
  match (uniqueFirst l).filter (fun a => l.count a == maxCount l) with
  | [] => "N/A"
  | m :: _ => m

/-! ### Facts about `value_counts` -/

theorem filter_orderedInsert_pos {α : Type} (r : α → α → Prop) [DecidableRel r]
    (p : α → Bool) (x : α) (m : List α) (hx : p x = true)
    (h : ∀ y, ¬r x y → p y = false) :
    (List.orderedInsert r x m).filter p = x :: m.filter p := by
  induction m with
  | nil => simp [List.orderedInsert, hx]
  | cons y ys ih =>
    by_cases hr : r x y
    · simp [List.orderedInsert, if_pos hr, List.filter_cons, hx]
    · have hy : p y = false := h y hr
      simp [List.orderedInsert, if_neg hr, List.filter_cons, hy, ih]

theorem filter_orderedInsert_neg {α : Type} (r : α → α → Prop) [DecidableRel r]
    (p : α → Bool) (x : α) (m : List α) (hx : p x = false) :
    (List.orderedInsert r x m).filter p = m.filter p := by
  induction m with
  | nil => simp [List.orderedInsert, hx]
  | cons y ys ih =>
    by_cases hr : r x y
    · simp [List.orderedInsert, if_pos hr, List.filter_cons, hx]
    · simp [List.orderedInsert, if_neg hr, List.filter_cons, ih]

/-- Insertion sort is stable: filtering to any class of elements that can
never be strictly reordered reproduces the original subsequence. -/
theorem filter_insertionSort {α : Type} (r : α → α → Prop) [DecidableRel r]
    (p : α → Bool) (h : ∀ x y, p x = true → ¬r x y → p y = false) :
    ∀ l : List α, (List.insertionSort r l).filter p = l.filter p := by
  intro l
  induction l with
  | nil => rfl
  | cons x xs ih =>
    simp only [List.insertionSort]
    by_cases hx : p x = true
    · rw [filter_orderedInsert_pos r p x _ hx (fun y hy => h x y hx hy), ih,
        List.filter_cons, if_pos hx]
    · have hx' : p x = false := Bool.eq_false_iff.mpr hx
      rw [filter_orderedInsert_neg r p x _ hx', ih, List.filter_cons, if_neg (by simp [hx'])]

theorem sorted_value_counts (l : List String) : List.Sorted countGE (value_counts l) :=
  List.sorted_insertionSort countGE (countsList l)

theorem mem_value_counts {l : List String} {p : String × Nat} :
    p ∈ value_counts l ↔ ∃ a, a ∈ uniqueFirst l ∧ p = (a, l.count a) := by
  unfold value_counts countsList
  rw [List.mem_insertionSort, List.mem_map]
  constructor
  · rintro ⟨a, ha, rfl⟩; exact ⟨a, ha, rfl⟩
  · rintro ⟨a, ha, rfl⟩; exact ⟨a, ha, rfl⟩

/-- Stability instantiated at `value_counts`: the entries of any one count
value keep the first-occurrence order of the keys. -/
theorem value_counts_filter_count (l : List String) (c : Nat) :
    (value_counts l).filter (fun q => q.2 == c)
      = (countsList l).filter (fun q => q.2 == c) := by
  refine filter_insertionSort countGE _ ?_ (countsList l)
  intro x y hx hr
  have hxc : x.2 = c := by simpa using hx
  have hyx : ¬(y.2 ≤ x.2) := hr
  have : y.2 ≠ c := by omega
  simpa using this

theorem value_counts_take_facts (l : List String) (n : Nat) :
    (∀ p, p ∈ (value_counts l).take n → p.1 ∈ l ∧ p.2 = l.count p.1) ∧
    (∀ a, a ∈ l → a ∉ ((value_counts l).take n).map Prod.fst →
      ∀ p, p ∈ (value_counts l).take n → l.count a ≤ p.2) := by
  constructor
  · intro p hp
    obtain ⟨a, ha, rfl⟩ := mem_value_counts.mp (List.mem_of_mem_take hp)
    exact ⟨(mem_uniqueFirst a l).mp ha, rfl⟩
  · intro a ha hnot p hp
    have hmem : (a, l.count a) ∈ value_counts l :=
      mem_value_counts.mpr ⟨a, (mem_uniqueFirst a l).mpr ha, rfl⟩
    have hnotin : (a, l.count a) ∉ (value_counts l).take n := fun hc =>
      hnot (List.mem_map_of_mem Prod.fst hc)
    have hdrop : (a, l.count a) ∈ (value_counts l).drop n := by
      rw [← List.take_append_drop n (value_counts l)] at hmem
      rcases List.mem_append.mp hmem with h | h
      · exact absurd h hnotin
      · exact h
    have hs : List.Pairwise countGE ((value_counts l).take n ++ (value_counts l).drop n) := by
      rw [List.take_append_drop]
      exact sorted_value_counts l
    exact (List.pairwise_append.mp hs).2.2 p hp (a, l.count a) hdrop

theorem take_filter_isPrefixLike {α : Type} (l : List α) (p : α → Bool) (n : Nat) :
    ∃ m, (l.take n).filter p = (l.filter p).take m := by
  refine ⟨((l.take n).filter p).length, ?_⟩
  have hsplit : l.filter p = (l.take n).filter p ++ (l.drop n).filter p := by
    rw [← List.filter_append, List.take_append_drop]
  rw [hsplit, List.take_left]

/-- Among the artists of any one count value, the entries that make it into
`take n` of the counts are an initial segment of the first-occurrence
order. -/
theorem value_counts_take_tie (l : List String) (n : Nat) (c : Nat) :
    ∃ m, (((value_counts l).take n).filter (fun q => q.2 == c)).map Prod.fst
      = ((uniqueFirst l).filter (fun k => l.count k == c)).take m := by
  obtain ⟨m, hm⟩ := take_filter_isPrefixLike (value_counts l) (fun q => q.2 == c) n
  have h2 : (countsList l).filter (fun q => q.2 == c)
      = ((uniqueFirst l).filter (fun k => l.count k == c)).map (fun a => (a, l.count a)) := by
    unfold countsList
    rw [List.filter_map]
    rfl
  refine ⟨m, ?_⟩
  rw [hm, value_counts_filter_count, h2, ← List.map_take, List.map_map]
  have : (Prod.fst ∘ fun a => (a, l.count a)) = fun a : String => a := rfl
  rw [this, List.map_id'']
  intro x
  rfl

/-! ### Facts about `seriesMode` and `most_frequent_artist` -/

theorem charListLe_refl : ∀ cs : List Char, charListLe cs cs = true
  | [] => rfl
  | c :: cs => by
    simp only [charListLe, Nat.lt_irrefl, if_false]
    exact charListLe_refl cs

theorem strLE_refl (s : String) : strLE s s := charListLe_refl s.toList

theorem count_le_maxCount {l : List String} {a : String} (h : a ∈ l) :
    l.count a ≤ maxCount l :=
  le_foldr_max (List.mem_map_of_mem _ ((mem_uniqueFirst a l).mpr h))

theorem maxCount_attained {l : List String} (h : l ≠ []) :
    ∃ a, a ∈ uniqueFirst l ∧ l.count a = maxCount l := by
  have hne : uniqueFirst l ≠ [] := uniqueFirst_ne_nil h
  rcases foldr_max_mem ((uniqueFirst l).map (fun a => l.count a))
      (by simpa using hne) with hmem | h0
  · obtain ⟨a, ha, hc⟩ := List.mem_map.mp hmem
    exact ⟨a, ha, hc⟩
  · obtain ⟨a, ha⟩ := List.exists_mem_of_ne_nil _ hne
    have h1 : 0 < l.count a := List.count_pos_iff.mpr ((mem_uniqueFirst a l).mp ha)
    have h2 : l.count a ≤ maxCount l := le_foldr_max (List.mem_map_of_mem _ ha)
    unfold maxCount at h2
    omega

theorem seriesMode_ne_nil {l : List String} (h : l ≠ []) : seriesMode l ≠ [] := by
  intro hS
  obtain ⟨a, ha, hc⟩ := maxCount_attained h
  have hmem : a ∈ seriesMode l := by
    unfold seriesMode
    exact (List.mem_insertionSort strLE).mpr (List.mem_filter.mpr ⟨ha, by simpa using hc⟩)
  rw [hS] at hmem
  exact List.not_mem_nil a hmem

/-! ### Facts about `df_filtered` -/

theorem df_filtered_eq_filter (table : List Track) (lo hi : Int) (sel : List String) :
    df_filtered table lo hi sel =
      table.filter (fun t => (decide (lo ≤ t.year) && decide (t.year ≤ hi)) &&
        (sel.isEmpty || sel.contains t.artists)) := by
  unfold df_filtered
  by_cases hsel : sel.isEmpty = true
  · rw [if_pos hsel]
    have : (fun t : Track => (decide (lo ≤ t.year) && decide (t.year ≤ hi)) &&
        (sel.isEmpty || sel.contains t.artists))
        = fun t : Track => decide (lo ≤ t.year) && decide (t.year ≤ hi) := by
      funext t
      rw [hsel, Bool.true_or, Bool.and_true]
    rw [this]
  · rw [if_neg hsel, List.filter_filter]
    have hsel' : sel.isEmpty = false := Bool.eq_false_iff.mpr hsel
    have : (fun t : Track => sel.contains t.artists &&
        (decide (lo ≤ t.year) && decide (t.year ≤ hi)))
        = fun t : Track => (decide (lo ≤ t.year) && decide (t.year ≤ hi)) &&
            (sel.isEmpty || sel.contains t.artists) := by
      funext t
      rw [hsel', Bool.false_or, Bool.and_comm]
    rw [this]

theorem length_filter_mono {α : Type} (l : List α) (p q : α → Bool)
    (h : ∀ x, p x = true → q x = true) :
    (l.filter p).length ≤ (l.filter q).length := by
  induction l with
  | nil => simp
  | cons x xs ih =>
    by_cases hp : p x = true
    · rw [List.filter_cons, if_pos hp, List.filter_cons, if_pos (h x hp)]
      simpa using ih
    · rw [List.filter_cons, if_neg hp]
      by_cases hq : q x = true
      · rw [List.filter_cons, if_pos hq]
        exact Nat.le_trans ih (Nat.le_succ _)
      · rw [List.filter_cons, if_neg hq]
        exact ih

example : most_frequent_artist ["B", "A"] = "A" := by decide

example : modalArtistFirstTie ["B", "A"] = "B" := by decide

example : value_counts ["A", "B", "A"] = [("A", 2), ("B", 1)] := by decide

example : decade_distribution ["2000s", "1990s", "1990s"] = [("1990s", 2), ("2000s", 1)] := by
  decide

/-- Every character of a cleaned `artists` value avoids the stripped
class. -/
theorem cleanArtists_no_punct (s : String) :
    ((cleanArtists s).toList.all (fun c => !isListPunct c)) = true := by
  rw [List.all_eq_true]
  intro c hc
  have hc' : c ∈ trimChars (s.toList.filter (fun d => !isListPunct d)) := hc
  unfold trimChars at hc'
  have h1 := List.mem_reverse.mp hc'
  have h2 := (List.dropWhile_sublist isPySpace).subset h1
  have h3 := List.mem_reverse.mp h2
  have h4 := (List.dropWhile_sublist isPySpace).subset h3
  have h5 := List.mem_filter.mp h4
  exact h5.2

/-! ### Concrete inputs used by the witnesses and counterexamples -/

def specTrack1 : Track := ⟨"s1", "A", 50, 1995, "1990s"⟩

def specTrack2 : Track := ⟨"s2", "A", 70, 1996, "1990s"⟩

def specTrack3 : Track := ⟨"s3", "B", 90, 2001, "2000s"⟩

/-- The three-row example table of the testable-properties section of the
design document. -/
def specTable : List Track := [specTrack1, specTrack2, specTrack3]

def c1Table : RawTable :=
  ⟨true, true, true, true, false, false,
   [⟨some "Song", some "A", some 50, some 1995, none, none⟩]⟩

def c1Track : Track := ⟨"Song", "A", 50, 1995, "1990s"⟩

/-- A variant-B style table: `track_name` present, `name` absent. -/
def c2Table : RawTable :=
  ⟨true, false, true, true, true, false,
   [⟨none, some "Artist", some 50, some 2000, some "Tune", none⟩]⟩

/-- Another table lacking the `name` column. -/
def c2bTable : RawTable :=
  ⟨true, false, true, true, false, false,
   [⟨none, some "Artist2", some 60, some 2001, some "Tune2", none⟩]⟩

/-- A table whose `year` column is wholly absent. -/
def c3Table : RawTable :=
  ⟨true, true, true, false, false, false,
   [⟨some "Song", some "A", some 50, some 1995, none, none⟩]⟩

/-- A table whose `popularity` column is wholly absent. -/
def c3bTable : RawTable :=
  ⟨true, true, false, true, false, false,
   [⟨some "Song", some "A", some 50, some 1995, none, none⟩]⟩

def apos : String := (Char.ofNat 39).toString

/-- A plain artist name containing an apostrophe, not a serialized list. -/
def gunsRaw : String := "Guns N" ++ apos ++ " Roses"

def gunsTable : RawTable :=
  ⟨true, true, true, true, false, false,
   [⟨some "Sweet Child", some gunsRaw, some 50, some 1988, none, none⟩]⟩

def gunsTrack : Track := ⟨"Sweet Child", "Guns N Roses", 50, 1988, "1980s"⟩

/-- Twelve rows over eleven artists, exercising the top-10 cut. -/
def elevenArtists : List String :=
  ["a0", "a1", "a2", "a3", "a4", "a5", "a6", "a7", "a8", "a9", "a10", "a0"]

/-- One hundred and one distinct artist names, the first repeated once,
exercising the top-100 cut of the multiselect options. -/
def manyArtists : List String :=
  (List.range 101).map (fun i => String.append "a" (Nat.repr i)) ++ ["a0"]

def manyTable : List Track :=
  manyArtists.map (fun a => ⟨"s", a, 50, 2000, "2000s"⟩)

/-! ### The claims -/

/-- C1: every row retained in the normalized table produced by `load_data`
satisfies `1921 ≤ year ≤ 2020`, and its `decade` is the string of
`(year / 10) * 10` followed by `s`. -/
theorem retained_rows_year_range_decade (t : RawTable) (out : List Track)
    (h : load_data t = Except.ok out) :
    ∀ tr ∈ out, 1921 ≤ tr.year ∧ tr.year ≤ 2020 ∧
      tr.decade = toString ((tr.year / 10) * 10) ++ "s" := by
  unfold load_data at h
  by_cases hreq : requiredPresent t = true
  · rw [if_pos hreq] at h
    cases h
    intro tr htr
    obtain ⟨r, hr, hmk⟩ := List.mem_filterMap.mp htr
    obtain ⟨hrc, hyr⟩ := List.mem_filter.mp hr
    cases hn : r.name with
    | none => simp [mkTrack, hn] at hmk
    | some n =>
      cases ha : r.artists with
      | none => simp [mkTrack, hn, ha] at hmk
      | some a =>
        cases hp : r.popularity with
        | none => simp [mkTrack, hn, ha, hp] at hmk
        | some p =>
          cases hy : r.year with
          | none => simp [mkTrack, hn, ha, hp, hy] at hmk
          | some y =>
            simp only [mkTrack, hn, ha, hp, hy, Option.some.injEq] at hmk
            subst hmk
            unfold yearInRange at hyr
            rw [hy] at hyr
            simp only [Bool.and_eq_true, decide_eq_true_eq] at hyr
            exact ⟨hyr.1, hyr.2, rfl⟩
  · rw [if_neg hreq] at h
    exact Except.noConfusion h

/-- C1 witness: the single-row table with year 1995 is normalized to a row
with decade label `1990s` inside the range. -/
theorem retained_rows_year_range_decade_witness :
    1921 ≤ c1Track.year ∧ c1Track.year ≤ 2020 ∧
      c1Track.decade = toString ((c1Track.year / 10) * 10) ++ "s" :=
  retained_rows_year_range_decade c1Table [c1Track] rfl c1Track (List.mem_singleton.mpr rfl)

/-- C2 counterexample: a table with `track_name` present and `name` absent is
rejected by `load_data` (the `dropna` raises a `KeyError`), so `track_name`
is not treated as the canonical name column. -/
theorem rename_track_name_counterexample : load_data c2Table = Except.error () := rfl

/-- C2 amended: `load_data` performs no column reconciliation: the presence
of `track_name` or `track_artist` has no effect on the result, and a table
lacking the canonical `name` column fails with a `KeyError` even when
`track_name` is present. -/
theorem no_column_rename (t : RawTable) (b₁ b₂ : Bool) :
    load_data (withTrackCols t b₁ b₂) = load_data t ∧
    (t.hasName = false → load_data t = Except.error ()) := by
  constructor
  · cases t
    rfl
  · intro h
    simp [load_data, requiredPresent, h]

/-- C2 witness: on a concrete nameless table the track-column flags are
irrelevant and the load fails. -/
theorem no_column_rename_witness :
    load_data (withTrackCols c2bTable true true) = load_data c2bTable ∧
      load_data c2bTable = Except.error () :=
  ⟨(no_column_rename c2bTable true true).1, (no_column_rename c2bTable true true).2 rfl⟩

/-- C3 counterexample: with the `year` column wholly absent, `load_data`
raises (the `KeyError` of `dropna(subset=...)`) instead of reporting a
non-fatal warning and continuing. -/
theorem missing_year_column_errors : load_data c3Table = Except.error () := rfl

/-- C3 amended: row dropping is applied unconditionally over all four
required columns: `load_data` succeeds exactly when all four are present in
the schema and raises a `KeyError` when any is absent. -/
theorem dropna_requires_all_columns (t : RawTable) :
    (requiredPresent t = false → load_data t = Except.error ()) ∧
    (requiredPresent t = true → ∃ out, load_data t = Except.ok out) := by
  constructor
  · intro h
    simp [load_data, h]
  · intro h
    unfold load_data
    rw [if_pos h]
    exact ⟨_, rfl⟩

/-- C3 witness: a table lacking only `popularity` errors out. -/
theorem dropna_requires_all_columns_witness : load_data c3bTable = Except.error () :=
  (dropna_requires_all_columns c3bTable).1 rfl

/-- C4 counterexample: on the tied subset `["B", "A"]` the metric computed by
the code (`mode().iloc[0]`, the smallest modal value) is `"A"`, while the
first-encountered tie-break stated by the claim gives `"B"`. -/
theorem modal_artist_tie_counterexample :
    most_frequent_artist ["B", "A"] = "A" ∧ modalArtistFirstTie ["B", "A"] = "B" ∧
      most_frequent_artist ["B", "A"] ≠ modalArtistFirstTie ["B", "A"] := by
  decide

/-- C4 amended: for a non-empty subset the metric is a most frequent artists
value, with ties broken by ascending string order (the smallest modal value
is reported, not the first-encountered one); for the empty subset the
metric is the sentinel `N/A`. -/
theorem modal_artist_min_mode (l : List String) :
    most_frequent_artist [] = "N/A" ∧
    (l ≠ [] →
      most_frequent_artist l ∈ l ∧
      (∀ a ∈ l, l.count a ≤ l.count (most_frequent_artist l)) ∧
      (∀ a ∈ l, l.count a = l.count (most_frequent_artist l) →
        strLE (most_frequent_artist l) a)) := by
  refine ⟨rfl, fun h => ?_⟩
  obtain ⟨m, rest, hSm⟩ : ∃ m rest, seriesMode l = m :: rest := by
    cases hS : seriesMode l with
    | nil => exact absurd hS (seriesMode_ne_nil h)
    | cons m rest => exact ⟨m, rest, rfl⟩
  have hmu : most_frequent_artist l = m := by
    unfold most_frequent_artist
    rw [hSm]
  have hmf : m ∈ (uniqueFirst l).filter (fun a => l.count a == maxCount l) := by
    have hmm : m ∈ seriesMode l := by
      rw [hSm]
      exact List.mem_cons_self _ _
    unfold seriesMode at hmm
    exact (List.mem_insertionSort strLE).mp hmm
  obtain ⟨hmkeys, hmc⟩ := List.mem_filter.mp hmf
  have hmcount : l.count m = maxCount l := by simpa using hmc
  have hml : m ∈ l := (mem_uniqueFirst m l).mp hmkeys
  have hsorted : List.Sorted strLE (seriesMode l) := List.sorted_insertionSort strLE _
  rw [hmu]
  refine ⟨hml, ?_, ?_⟩
  · intro a ha
    rw [hmcount]
    exact count_le_maxCount ha
  · intro a ha hac
    have hamax : l.count a = maxCount l := by rw [hac, hmcount]
    have haS : a ∈ seriesMode l := by
      unfold seriesMode
      exact (List.mem_insertionSort strLE).mpr
        (List.mem_filter.mpr ⟨(mem_uniqueFirst a l).mpr ha, by simpa using hamax⟩)
    rw [hSm] at haS hsorted
    rcases List.mem_cons.mp haS with rfl | haS'
    · exact strLE_refl _
    · exact List.rel_of_sorted_cons hsorted a haS'

/-- C4 witness: the amended statement applied to a concrete subset. -/
theorem modal_artist_min_mode_witness :
    most_frequent_artist ["A", "B", "A"] ∈ (["A", "B", "A"] : List String) :=
  ((modal_artist_min_mode ["A", "B", "A"]).2 (by decide)).1

/-- C5: when the filtered subset is empty, the pass signals the
no-rows-matched outcome and renders no metrics, charts or table. -/
theorem empty_filter_signals_no_rows (table : List Track) (lo hi : Int)
    (sel : List String) (h : df_filtered table lo hi sel = []) :
    (run_dashboard table lo hi sel).outcome = RenderOutcome.noRowsMatched ∧
    ∀ m t10 dd rows, (run_dashboard table lo hi sel).outcome ≠
      RenderOutcome.rendered m t10 dd rows := by
  have hout : (run_dashboard table lo hi sel).outcome = RenderOutcome.noRowsMatched := by
    simp [run_dashboard, h]
  refine ⟨hout, fun m t10 dd rows hc => ?_⟩
  rw [hout] at hc
  exact RenderOutcome.noConfusion hc

/-- C5 witness: the design document's example — the spec table filtered to
1921-1930 — matches no rows and the pass stops with the warning outcome. -/
theorem empty_filter_signals_no_rows_witness :
    (run_dashboard specTable 1921 1930 []).outcome = RenderOutcome.noRowsMatched :=
  (empty_filter_signals_no_rows specTable 1921 1930 [] rfl).1

/-- C6: the decade-distribution table is ordered by ascending numeric decade
value (the label with its `s` stripped, parsed as an integer, never the
label strings lexicographically), and holds exactly the grouped counts. -/
theorem decade_table_numeric_sorted (l : List String) :
    List.Pairwise (fun a b : String × Nat => parseDecadeNum a.1 ≤ parseDecadeNum b.1)
      (decade_distribution l) ∧
    ∀ p, p ∈ decade_distribution l ↔ p ∈ value_counts l := by
  constructor
  · exact List.sorted_insertionSort decadeLE (value_counts l)
  · intro p
    exact List.mem_insertionSort decadeLE

/-- C7 counterexample: growing a non-empty allowlist from one artist to two
increases the filtered row count on the spec's example table, so adding
artists to a non-empty allowlist can increase the count. -/
theorem allowlist_growth_counterexample :
    (df_filtered specTable 1990 2020 ["A"]).length <
      (df_filtered specTable 1990 2020 ["A", "B"]).length := by
  decide

/-- C7 amended: filtering is monotone in the restrictive direction: raising
`minYear`, lowering `maxYear`, replacing no restriction by an allowlist, or
removing artists from an allowlist that stays non-empty never increases the
filtered row count. -/
theorem filter_monotone_narrowing (table : List Track) (lo₁ hi₁ lo₂ hi₂ : Int)
    (sel₁ sel₂ : List String) (hlo : lo₁ ≤ lo₂) (hhi : hi₂ ≤ hi₁)
    (hsel : sel₁ = [] ∨ (sel₂ ≠ [] ∧ ∀ a ∈ sel₂, a ∈ sel₁)) :
    (df_filtered table lo₂ hi₂ sel₂).length ≤ (df_filtered table lo₁ hi₁ sel₁).length := by
  rw [df_filtered_eq_filter, df_filtered_eq_filter]
  apply length_filter_mono
  intro t ht
  simp only [Bool.and_eq_true, Bool.or_eq_true, decide_eq_true_eq] at ht ⊢
  obtain ⟨⟨h1, h2⟩, h3⟩ := ht
  refine ⟨⟨by omega, by omega⟩, ?_⟩
  rcases hsel with hempty | ⟨hne, hsub⟩
  · left
    rw [hempty]
    rfl
  · rcases h3 with h3 | h3
    · exact absurd (List.isEmpty_iff.mp h3) hne
    · right
      exact List.elem_eq_true_of_mem (hsub _ (List.mem_of_elem_eq_true h3))

/-- C7 witness: narrowing the year range while replacing no restriction by
an allowlist does not increase the count on the example table. -/
theorem filter_monotone_narrowing_witness :
    (df_filtered specTable 1995 2020 ["B"]).length ≤
      (df_filtered specTable 1990 2020 []).length :=
  filter_monotone_narrowing specTable 1990 2020 1995 2020 [] ["B"] (by decide) (by decide)
    (Or.inl rfl)

/-- C8: the top-artist table has at most ten entries; each entry is an
artist of the subset with its exact count; every listed count is at least
the count of any artist not listed; and within each count value the listed
artists are an initial segment of the first-encountered order, so ties are
broken by first occurrence. -/
theorem top10_spec (l : List String) :
    (top_10_artists l).length ≤ 10 ∧
    (∀ p, p ∈ top_10_artists l → p.1 ∈ l ∧ p.2 = l.count p.1) ∧
    (∀ a, a ∈ l → a ∉ (top_10_artists l).map Prod.fst →
      ∀ p, p ∈ top_10_artists l → l.count a ≤ p.2) ∧
    (∀ c, ∃ m, ((top_10_artists l).filter (fun q => q.2 == c)).map Prod.fst
      = ((uniqueFirst l).filter (fun k => l.count k == c)).take m) :=
  ⟨List.length_take_le 10 (value_counts l),
   (value_counts_take_facts l 10).1,
   (value_counts_take_facts l 10).2,
   fun c => value_counts_take_tie l 10 c⟩

/-- C8 witness: on twelve rows over eleven artists, the excluded artist's
count is bounded by a listed entry's count. -/
theorem top10_spec_witness : List.count "a10" elevenArtists ≤ 2 :=
  (top10_spec elevenArtists).2.2.1 "a10" (by decide) (by decide) ("a0", 2) (by decide)

/-- C9: the multiselect allowlist equals the top-100 frequency list of the
unfiltered normalized table, is identical across all filter settings, has
at most 100 entries, and every artist on it occurs in the unfiltered table
at least as often as any artist off it. -/
theorem allowlist_unfiltered_stable (table : List Track) (lo hi : Int) (sel : List String) :
    (run_dashboard table lo hi sel).options = top_artists table ∧
    (∀ lo₂ hi₂ sel₂, (run_dashboard table lo hi sel).options
      = (run_dashboard table lo₂ hi₂ sel₂).options) ∧
    (top_artists table).length ≤ 100 ∧
    (∀ a, a ∈ top_artists table → ∀ b, b ∈ table.map (fun t => t.artists) →
      b ∉ top_artists table →
      (table.map (fun t => t.artists)).count b ≤ (table.map (fun t => t.artists)).count a) := by
  have hopt : ∀ (lo' hi' : Int) (sel' : List String),
      (run_dashboard table lo' hi' sel').options = top_artists table := by
    intro lo' hi' sel'
    by_cases hE : (df_filtered table lo' hi' sel').isEmpty = true
    · simp [run_dashboard, hE]
    · simp [run_dashboard, hE]
  refine ⟨hopt lo hi sel,
    fun lo₂ hi₂ sel₂ => (hopt lo hi sel).trans (hopt lo₂ hi₂ sel₂).symm, ?_, ?_⟩
  · unfold top_artists
    rw [List.length_map]
    exact List.length_take_le 100 _
  · intro a ha b hb hnb
    obtain ⟨p, hp, hpa⟩ := List.mem_map.mp ha
    have hnb' : b ∉ ((value_counts (table.map (fun t => t.artists))).take 100).map Prod.fst :=
      hnb
    have hfacts := (value_counts_take_facts (table.map (fun t => t.artists)) 100).1 p hp
    have hcount := (value_counts_take_facts (table.map (fun t => t.artists)) 100).2 b hb hnb' p hp
    calc (table.map (fun t => t.artists)).count b ≤ p.2 := hcount
      _ = (table.map (fun t => t.artists)).count p.1 := hfacts.2
      _ = (table.map (fun t => t.artists)).count a := by rw [hpa]

set_option maxRecDepth 40000

/-- C9 witness: the options of a concrete pass equal the unfiltered top-100
list, and on a 101-artist table the excluded artist is no more frequent
than the repeated listed one. -/
theorem allowlist_unfiltered_stable_witness :
    (run_dashboard specTable 1921 1930 ["B"]).options = top_artists specTable ∧
    List.count "a100" (manyTable.map (fun t => t.artists)) ≤
      List.count "a0" (manyTable.map (fun t => t.artists)) :=
  ⟨(allowlist_unfiltered_stable specTable 1921 1930 ["B"]).1,
   (allowlist_unfiltered_stable manyTable 0 0 []).2.2.2 "a0" (by decide) "a100"
     (by decide) (by decide)⟩

/-- C10: `load_data` strips the bracket and apostrophe characters from every
`artists` value unconditionally: each normalized row's `artists` is the
cleanup of the corresponding raw value, and contains none of the three
characters, whatever the shape of the input value. -/
theorem artists_cleanup_unconditional (t : RawTable) (out : List Track)
    (h : load_data t = Except.ok out) :
    ∀ tr ∈ out, (tr.artists.toList.all (fun c => !isListPunct c)) = true ∧
      ∃ r, r ∈ t.rows ∧ ∃ s, r.artists = some s ∧ tr.artists = cleanArtists s := by
  unfold load_data at h
  by_cases hreq : requiredPresent t = true
  · rw [if_pos hreq] at h
    cases h
    intro tr htr
    obtain ⟨r, hr, hmk⟩ := List.mem_filterMap.mp htr
    obtain ⟨hrc, _⟩ := List.mem_filter.mp hr
    obtain ⟨hrows, _⟩ := List.mem_filter.mp hrc
    cases hn : r.name with
    | none => simp [mkTrack, hn] at hmk
    | some n =>
      cases ha : r.artists with
      | none => simp [mkTrack, hn, ha] at hmk
      | some a =>
        cases hp : r.popularity with
        | none => simp [mkTrack, hn, ha, hp] at hmk
        | some p =>
          cases hy : r.year with
          | none => simp [mkTrack, hn, ha, hp, hy] at hmk
          | some y =>
            simp only [mkTrack, hn, ha, hp, hy, Option.some.injEq] at hmk
            subst hmk
            exact ⟨cleanArtists_no_punct a, r, hrows, a, ha, rfl⟩
  · rw [if_neg hreq] at h
    exact Except.noConfusion h

/-- C10 witness: an `artists` value that is a plain name with an apostrophe,
not a serialized list, still has the apostrophe removed. -/
theorem artists_cleanup_unconditional_witness :
    load_data gunsTable = Except.ok [gunsTrack] ∧
      (gunsTrack.artists.toList.all (fun c => !isListPunct c)) = true :=
  ⟨rfl, (artists_cleanup_unconditional gunsTable [gunsTrack] rfl gunsTrack
    (List.mem_singleton.mpr rfl)).1⟩

end SpotifyDash
